import Mathlib

/-!
Verification of the DingTalk connector plugin (`plugin.ts`).

This file gives a shallow embedding, in Lean, of the pure/observable core of
the plugin's source code:

* session management (`NEW_SESSION_COMMANDS`, `isNewSessionCommand`,
  `getSessionKey`),
* the local-image post-processing pipeline (`LOCAL_IMAGE_RE`,
  `BARE_IMAGE_PATH_RE`, `processLocalImages`),
* the AI-card lifecycle operations (`streamAICard`, `finishAICard`), with
  remote HTTP calls abstracted into an environment oracle that either succeeds
  or throws, and a trace of attempted pushes,
* the SSE consumption loop of `streamFromGateway`, including a small JSON
  parser standing in for `JSON.parse`,
* the post-card-creation portion of `handleDingTalkMessage` (card branch and
  degraded plain-message branch).

JavaScript strings are modelled as Lean `String`/`List Char` (the texts in
question are BMP text, where JS UTF-16 indices coincide with character
indices); `Date.now()` timestamps and timeouts are modelled as `Int`
milliseconds; JS `Map` state is modelled as an explicit `String → Option _`
store threaded through the functions.
-/

namespace DingTalk

/-! ## Character helpers shared by the embeddings -/

/-- The backtick character (0x60). -/
def backtickChar : Char := Char.ofNat 96

/-- The single-quote character (0x27). -/
def squoteChar : Char := Char.ofNat 39

/-- The double-quote character (0x22). -/
def dquoteChar : Char := Char.ofNat 34

/-- JavaScript whitespace (regex `\s` / `String.prototype.trim`) on the
characters relevant here (ASCII whitespace plus NBSP and BOM; the full JS
class also has other rare Unicode space separators, which never occur in the
texts under study). -/
def jsWhitespace (c : Char) : Bool :=
  c == ' ' || c == '\t' || c == '\n' || c == '\r' ||
  c == '\x0b' || c == '\x0c' || c == '\u00A0' || c == '\uFEFF'

/-- JS `String.prototype.trim`: drop leading and trailing whitespace. -/
def jsTrim (s : String) : String :=
  String.mk (((s.toList.dropWhile jsWhitespace).reverse.dropWhile jsWhitespace).reverse)

/-- ASCII lower-casing of one character (JS `toLowerCase` restricted to the
ASCII/CJK repertoire used by the trigger phrases, where the two agree). -/
def lowerChar (c : Char) : Char :=
  if 65 ≤ c.toNat ∧ c.toNat ≤ 90 then Char.ofNat (c.toNat + 32) else c

/-- JS `String.prototype.toLowerCase` (character-wise ASCII model). -/
def jsToLower (s : String) : String := String.mk (s.toList.map lowerChar)

/-! ## Session management (plugin.ts lines 25-80) -/

/-- Embedding of the `UserSession` interface: last-activity timestamp (ms)
and the current session identifier string. -/
structure UserSession where
  lastActivity : Int
  sessionId : String
deriving DecidableEq

/-- The `userSessions` map, modelled as an explicit store from sender id to
session. -/
def Registry : Type := String → Option UserSession

/-- Functional update of the session store (`userSessions.set`). -/
def setSession (reg : Registry) (k : String) (v : UserSession) : Registry :=
  fun k2 => if k2 = k then some v else reg k2

/-- Embedding of the `NEW_SESSION_COMMANDS` constant. -/
def NEW_SESSION_COMMANDS : List String :=
  ["/new", "/reset", "/clear", "新会话", "重新开始", "清空对话"]

/-- Embedding of `isNewSessionCommand`: trim the text, lower-case it, and
compare it for equality with each (lower-cased) trigger phrase. -/
def isNewSessionCommand (text : String) : Bool :=
  let trimmed := jsToLower (jsTrim text)
  NEW_SESSION_COMMANDS.any (fun cmd => trimmed == jsToLower cmd)

/-- Result of `getSessionKey`: the returned pair plus the updated
`userSessions` store. -/
structure SessionResolveResult where
  sessionKey : String
  isNew : Bool
  reg : Registry

/-- Embedding of `getSessionKey` (plugin.ts lines 44-80).  `now` stands for
`Date.now()`.  The source checks `forceNew` first, then an existing session's
timeout (`now - lastActivity > sessionTimeout` rotates the key), refreshing
the activity timestamp otherwise, and finally creates a first session with
the suffix-free key `dingtalk:<senderId>`. -/
def getSessionKey (reg : Registry) (now : Int) (senderId : String)
    (forceNew : Bool) (sessionTimeout : Int) : SessionResolveResult :=
  if forceNew then
    let sid := "dingtalk:" ++ senderId ++ ":" ++ toString now
    ⟨sid, true, setSession reg senderId ⟨now, sid⟩⟩
  else
    match reg senderId with
    | some existing =>
      if now - existing.lastActivity > sessionTimeout then
        let sid := "dingtalk:" ++ senderId ++ ":" ++ toString now
        ⟨sid, true, setSession reg senderId ⟨now, sid⟩⟩
      else
        ⟨existing.sessionId, false, setSession reg senderId ⟨now, existing.sessionId⟩⟩
    | none =>
      let sid := "dingtalk:" ++ senderId
      ⟨sid, false, setSession reg senderId ⟨now, sid⟩⟩

/-! ## Media post-processing (plugin.ts lines 150-288)

The two regular expressions

  `LOCAL_IMAGE_RE  = /!\[([^\]]*)\]\(((?:file:\/\/\/|MEDIA:|attachment:\/\/\/)[^\s)]+|\/(?:tmp|var|private|Users)[^\s)]+)\)/g`
  `BARE_IMAGE_PATH_RE = /`?(\/(?:tmp|var|private|Users)\/[^\s`'",)]+\.(?:png|jpg|jpeg|gif|bmp|webp))`?/gi`

are embedded as direct character-list matchers implementing exactly the
backtracking semantics these two patterns have in JavaScript, together with a
left-to-right non-overlapping `matchAll` scan. -/

/-- Character class `[^\s)]` used in `LOCAL_IMAGE_RE` path runs. -/
def mdPathChar (c : Char) : Bool := !(jsWhitespace c) && c != ')'

/-- Character class `` [^\s`'",)] `` used in `BARE_IMAGE_PATH_RE`. -/
def bareAllowed (c : Char) : Bool :=
  !(jsWhitespace c) && c != backtickChar && c != squoteChar &&
  c != dquoteChar && c != ',' && c != ')'

/-- Match a literal pattern at the head of the input, returning the rest. -/
def takeLit : List Char → List Char → Option (List Char)
  | [], s => some s
  | _ :: _, [] => none
  | p :: ps, c :: cs => if p == c then takeLit ps cs else none

/-- Case-insensitive literal match at the head of the input, returning the
original (case-preserved) consumed characters and the rest. -/
def ciTakeLit : List Char → List Char → Option (List Char × List Char)
  | [], s => some ([], s)
  | _ :: _, [] => none
  | p :: ps, c :: cs =>
    if p.toLower == c.toLower then
      (ciTakeLit ps cs).map (fun pr => (c :: pr.1, pr.2))
    else none

/-- Does `pat` occur at the head of `s`? -/
def headMatches : List Char → List Char → Bool
  | [], _ => true
  | _ :: _, [] => false
  | p :: ps, c :: cs => p == c && headMatches ps cs

/-- Does `pat` occur anywhere in `s` (JS `String.prototype.includes`)? -/
def hasSub : List Char → List Char → Bool
  | [], pat => headMatches pat []
  | c :: rest, pat => headMatches pat (c :: rest) || hasSub rest pat

/-- One match of `LOCAL_IMAGE_RE`: the full matched span, the alt-text
capture and the raw-path capture. -/
structure MdMatch where
  full : List Char
  alt : List Char
  rawPath : List Char
deriving DecidableEq

/-- Match the path alternation of `LOCAL_IMAGE_RE` followed by the closing
parenthesis: either a scheme prefix (`file:///`, `MEDIA:`, `attachment:///`)
followed by a nonempty `[^\s)]+` run, or `/` plus one of the local roots
(`tmp`, `var`, `private`, `Users`, case-sensitive) followed by a nonempty
run.  Returns the captured path and the remainder after `)`. -/
def mdPathPart (s : List Char) : Option (List Char × List Char) :=
  let schemeTry := fun (pre : List Char) =>
    match takeLit pre s with
    | some r =>
      let run := r.takeWhile mdPathChar
      let r2 := r.dropWhile mdPathChar
      if run.length ≥ 1 then
        match r2 with
        | ')' :: tl => some (pre ++ run, tl)
        | _ => none
      else none
    | none => none
  let rootTry := fun (root : List Char) =>
    match s with
    | '/' :: r =>
      match takeLit root r with
      | some r1 =>
        let run := r1.takeWhile mdPathChar
        let r2 := r1.dropWhile mdPathChar
        if run.length ≥ 1 then
          match r2 with
          | ')' :: tl => some ('/' :: (root ++ run), tl)
          | _ => none
        else none
      | none => none
    | _ => none
  (schemeTry "file:///".toList) <|> (schemeTry "MEDIA:".toList) <|>
  (schemeTry "attachment:///".toList) <|>
  (rootTry "tmp".toList) <|> (rootTry "var".toList) <|>
  (rootTry "private".toList) <|> (rootTry "Users".toList)

/-- Attempt to match `LOCAL_IMAGE_RE` anchored at the head of `s`:
`!` `[` alt (greedy `[^\]]*`) `]` `(` path `)`. -/
def mdTryMatch (s : List Char) : Option MdMatch :=
  match s with
  | '!' :: '[' :: rest =>
    let alt := rest.takeWhile (fun c => c != ']')
    match rest.dropWhile (fun c => c != ']') with
    | ']' :: '(' :: rest3 =>
      match mdPathPart rest3 with
      | some (path, _) =>
        some { full := '!' :: '[' :: (alt ++ ']' :: '(' :: (path ++ [')'])),
               alt := alt, rawPath := path }
      | none => none
    | _ => none
  | _ => none

/-- Left-to-right non-overlapping scan for `LOCAL_IMAGE_RE` matches
(`content.matchAll(LOCAL_IMAGE_RE)`). -/
def mdScan : Nat → List Char → List MdMatch
  | 0, _ => []
  | _, [] => []
  | fuel + 1, s@(_ :: rest) =>
    match mdTryMatch s with
    | some m => m :: mdScan fuel (s.drop (max 1 m.full.length))
    | none => mdScan fuel rest

/-- All `LOCAL_IMAGE_RE` matches of a character list. -/
def mdMatchAll (s : List Char) : List MdMatch := mdScan s.length s

/-- One match of `BARE_IMAGE_PATH_RE`: the full matched span (backticks
included when present) and the captured path (backticks excluded). -/
structure BareMatch where
  full : List Char
  rawPath : List Char
deriving DecidableEq

/-- The image extensions of `BARE_IMAGE_PATH_RE`, in alternation order. -/
def bareExtList : List (List Char) :=
  ["png".toList, "jpg".toList, "jpeg".toList, "gif".toList,
   "bmp".toList, "webp".toList]

/-- Try the extension alternation (case-insensitively), returning the
original consumed characters and the rest. -/
def tryExts : List (List Char) → List Char → Option (List Char × List Char)
  | [], _ => none
  | e :: es, s =>
    match ciTakeLit e s with
    | some r => some r
    | none => tryExts es s

/-- At offset `l` into `r3`, try to match `.` followed by an extension.
Returns the consumed `.ext` characters (case-preserved) and the rest. -/
def tryExtAt (r3 : List Char) (l : Nat) : Option (List Char × List Char) :=
  match r3.drop l with
  | '.' :: r5 =>
    match tryExts bareExtList r5 with
    | some (ext, rest) => some ('.' :: ext, rest)
    | none => none
  | _ => none

/-- Greedy backtracking search for the split point of
`` [^\s`'",)]+\.(?:png|...) ``: the `+` takes the longest length `l ≥ 1`
such that `.ext` matches right after it.  Returns `(l, dotExt, rest)`. -/
def findSplit (r3 : List Char) : Nat → Option (Nat × List Char × List Char)
  | 0 => none
  | l + 1 =>
    match tryExtAt r3 (l + 1) with
    | some (ext, rest) => some (l + 1, ext, rest)
    | none => findSplit r3 l

/-- The bare-path roots of `BARE_IMAGE_PATH_RE`, in alternation order. -/
def bareRootList : List (List Char) :=
  ["tmp".toList, "var".toList, "private".toList, "Users".toList]

/-- Match `BARE_IMAGE_PATH_RE` without the optional leading backtick:
`/` root (ci) `/` run `.` ext, then an optional trailing backtick. -/
def bareBody (s : List Char) : Option BareMatch :=
  match s with
  | '/' :: r =>
    match tryExts bareRootList r with
    | some (rootOrig, r2) =>
      match r2 with
      | '/' :: r3 =>
        let maxRun := (r3.takeWhile bareAllowed).length
        match findSplit r3 maxRun with
        | some (l, dotExt, rest4) =>
          let path := '/' :: (rootOrig ++ '/' :: (r3.take l ++ dotExt))
          match rest4 with
          | c :: _ =>
            if c == backtickChar then
              some { full := path ++ [backtickChar], rawPath := path }
            else some { full := path, rawPath := path }
          | [] => some { full := path, rawPath := path }
        | none => none
      | _ => none
    | none => none
  | _ => none

/-- Attempt to match `BARE_IMAGE_PATH_RE` anchored at the head of `s`
(optionally consuming a leading backtick). -/
def bareTryMatch (s : List Char) : Option BareMatch :=
  match s with
  | c :: rest =>
    if c == backtickChar then
      (bareBody rest).map fun bm =>
        { full := backtickChar :: bm.full, rawPath := bm.rawPath }
    else bareBody s
  | [] => none

/-- Left-to-right non-overlapping scan for `BARE_IMAGE_PATH_RE` matches,
recording the start index of each match (JS `m.index`). -/
def bareScan : Nat → Nat → List Char → List (Nat × BareMatch)
  | 0, _, _ => []
  | _, _, [] => []
  | fuel + 1, pos, s@(_ :: rest) =>
    match bareTryMatch s with
    | some m =>
      (pos, m) :: bareScan fuel (pos + max 1 m.full.length) (s.drop (max 1 m.full.length))
    | none => bareScan fuel (pos + 1) rest

/-- All `BARE_IMAGE_PATH_RE` matches with their indices
(`result.matchAll(BARE_IMAGE_PATH_RE)`). -/
def bareMatchAll (s : List Char) : List (Nat × BareMatch) := bareScan s.length 0 s

/-- JS `String.prototype.replace` with a string pattern: replace the first
occurrence of `pat` (if any) by `repl`. -/
def replaceFirstL : List Char → List Char → List Char → List Char
  | [], pat, repl =>
    match takeLit pat [] with
    | some rest => repl ++ rest
    | none => []
  | c :: cs, pat, repl =>
    match takeLit pat (c :: cs) with
    | some rest => repl ++ rest
    | none => c :: replaceFirstL cs pat repl

/-- The double-processing guard of the bare-path pass (plugin.ts lines
262-266): look at the (up to) 10 characters preceding the match index and
keep the match only when they do not contain the image-opener `](`. -/
def bareKeep (result : List Char) (idx : Nat) : Bool :=
  let before := (result.drop (idx - 10)).take (idx - (idx - 10))
  !(hasSub before [']', '('])

/-- The bare-path matches that survive the double-processing guard
(`newBareMatches` in the source). -/
def bareCandidates (result : List Char) : List (Nat × BareMatch) :=
  (bareMatchAll result).filter (fun pm => bareKeep result pm.1)

/-- Character-list core of `processLocalImages` (plugin.ts lines 233-288),
parameterised by the `uploadToDingTalk` oracle (path ↦ optional media id).
Returns the rewritten text together with the list of upload calls made, in
call order.  Pass 1 rewrites each `LOCAL_IMAGE_RE` match (first occurrence
replacement on the running result); pass 2 filters bare-path matches through
`bareKeep` and rewrites the survivors right-to-left at their indices. -/
def processLocalImagesL (content : List Char) (upload : String → Option String) :
    List Char × List String :=
  let mdMatches := mdMatchAll content
  let step1 := mdMatches.foldl
    (fun (acc : List Char × List String) m =>
      match upload (String.mk m.rawPath) with
      | some mid =>
        (replaceFirstL acc.1 m.full
          ('!' :: '[' :: (m.alt ++ ']' :: '(' :: (mid.toList ++ [')']))),
         acc.2 ++ [String.mk m.rawPath])
      | none => (acc.1, acc.2 ++ [String.mk m.rawPath]))
    (content, [])
  let result := step1.1
  let newBare := bareCandidates result
  let step2 := newBare.reverse.foldl
    (fun (acc : List Char × List String) pm =>
      match upload (String.mk pm.2.rawPath) with
      | some mid =>
        (acc.1.take pm.1 ++
          replaceFirstL (acc.1.drop pm.1) pm.2.full
            ('!' :: '[' :: ']' :: '(' :: (mid.toList ++ [')'])),
         acc.2 ++ [String.mk pm.2.rawPath])
      | none => (acc.1, acc.2 ++ [String.mk pm.2.rawPath]))
    (result, [])
  (step2.1, step1.2 ++ step2.2)

/-- Embedding of `processLocalImages`: with no `oapiToken` the input is
returned unchanged and no upload is attempted (only a diagnostic log line is
emitted in the source); otherwise the two rewriting passes run. -/
def processLocalImages (content : String) (oapiToken : Option String)
    (upload : String → Option String) : String × List String :=
  match oapiToken with
  | none => (content, [])
  | some _ =>
    let r := processLocalImagesL content.toList upload
    (String.mk r.1, r.2)

/-! ## Supporting lemmas for the media resolver -/

/-- If `pat` matches at offset `a` of `s`, then `pat` occurs in `s`. -/
lemma hasSub_of_headMatches_drop (pat : List Char) :
    ∀ (s : List Char) (a : Nat), headMatches pat (s.drop a) = true →
      hasSub s pat = true := by
  intro s
  induction s with
  | nil =>
    intro a h
    simpa [hasSub, List.drop_nil] using h
  | cons c cs ih =>
    intro a h
    cases a with
    | zero =>
      simp only [List.drop_zero] at h
      simp [hasSub, h]
    | succ n =>
      have hrec := ih n (by simpa using h)
      simp [hasSub, hrec]

/-- The double-processing guard: a bare-path match whose index sits right
after an image-opener `](` (i.e. the matched path is the path component of a
markdown-image occurrence) is always rejected by `bareKeep`, because the
10-character look-behind window necessarily contains the opener. -/
lemma bareKeep_eq_false_of_opener (result : List Char) (idx : Nat) (tl : List Char)
    (h2 : 2 ≤ idx) (h : result.drop (idx - 2) = ']' :: '(' :: tl) :
    bareKeep result idx = false := by
  have hdrop : ((result.drop (idx - 10)).take (idx - (idx - 10))).drop ((idx - 2) - (idx - 10))
      = [']', '('] := by
    rw [List.drop_take, List.drop_drop]
    have e1 : (idx - 10) + ((idx - 2) - (idx - 10)) = idx - 2 := by omega
    have e2 : idx - (idx - 10) - ((idx - 2) - (idx - 10)) = 2 := by omega
    rw [e1, e2, h]
    rfl
  have hmem : hasSub ((result.drop (idx - 10)).take (idx - (idx - 10))) [']', '('] = true := by
    apply hasSub_of_headMatches_drop [']', '('] _ ((idx - 2) - (idx - 10))
    rw [hdrop]
    rfl
  unfold bareKeep
  simp [hmem]

/-! ## Claim theorems: session registry and reset predicate -/

/-- Claim C8: `isNewSessionCommand` returns `true` exactly when the trimmed,
lower-cased input equals one of the six fixed trigger phrases (lower-cased);
in particular it accepts `"/new"` and `"新会话"` and rejects the partial
matches `"/new please"` and `"你好新会话"`. -/
theorem claim_C8 :
    (∀ text : String, isNewSessionCommand text = true ↔
      jsToLower (jsTrim text) ∈ NEW_SESSION_COMMANDS.map jsToLower)
    ∧ isNewSessionCommand "/new" = true
    ∧ isNewSessionCommand "新会话" = true
    ∧ isNewSessionCommand "/new please" = false
    ∧ isNewSessionCommand "你好新会话" = false := by
  refine ⟨fun text => ?_, by decide, by decide, by decide, by decide⟩
  unfold isNewSessionCommand
  simp only [List.any_eq_true, beq_iff_eq, List.mem_map]
  constructor
  · rintro ⟨cmd, hmem, heq⟩
    exact ⟨cmd, hmem, heq.symm⟩
  · rintro ⟨cmd, hmem, heq⟩
    exact ⟨cmd, hmem, heq.symm⟩

/-- Claim C6: for a sender with a stored session and `forceNew = false`, the
resolve call rotates to the timestamp-suffixed key with `isNew = true`
exactly when the elapsed gap `now - lastActivity` strictly exceeds the
timeout; otherwise it returns the stored key with `isNew = false` and
refreshes the stored `lastActivity` to `now`. -/
theorem claim_C6 (reg : Registry) (now T : Int) (senderId : String) (s : UserSession)
    (h : reg senderId = some s) :
    ((getSessionKey reg now senderId false T).isNew = true ↔ now - s.lastActivity > T)
    ∧ (now - s.lastActivity > T →
        (getSessionKey reg now senderId false T).sessionKey
          = "dingtalk:" ++ senderId ++ ":" ++ toString now)
    ∧ (¬ now - s.lastActivity > T →
        (getSessionKey reg now senderId false T).sessionKey = s.sessionId
        ∧ (getSessionKey reg now senderId false T).isNew = false
        ∧ (getSessionKey reg now senderId false T).reg senderId
            = some ⟨now, s.sessionId⟩) := by
  unfold getSessionKey
  rw [h]
  by_cases hgt : now - s.lastActivity > T
  · simp [hgt]
  · simp [hgt, setSession]

/-- Claim C6 witness: concrete instantiation (stored session with
`lastActivity = 0`, `now = 2000`, timeout `500`), where the gap exceeds the
timeout and the key rotates. -/
theorem claim_C6_witness :
    ((getSessionKey (setSession (fun _ => none) "u" ⟨0, "dingtalk:u"⟩) 2000 "u" false 500).isNew
        = true ↔ (2000 : Int) - 0 > 500)
    ∧ ((2000 : Int) - 0 > 500 →
        (getSessionKey (setSession (fun _ => none) "u" ⟨0, "dingtalk:u"⟩) 2000 "u" false 500).sessionKey
          = "dingtalk:" ++ "u" ++ ":" ++ toString (2000 : Int)) := by
  have h := claim_C6 (setSession (fun _ => none) "u" ⟨0, "dingtalk:u"⟩) 2000 500 "u"
    ⟨0, "dingtalk:u"⟩ (by simp [setSession])
  exact ⟨h.1, h.2.1⟩

/-- Claim C7 counterexample: with `forceReset = true` and no stored session,
`getSessionKey` takes the forced-reset branch first, so it returns the
timestamp-suffixed key `"dingtalk:u:1000"` with `isNew = true` — not the
suffix-free first-session key with `isNew = false` that the claim asserts
for every value of the flag. -/
theorem claim_C7_counterexample :
    (getSessionKey (fun _ => none) 1000 "u" true 500).isNew = true
    ∧ (getSessionKey (fun _ => none) 1000 "u" true 500).sessionKey = "dingtalk:u:1000"
    ∧ (getSessionKey (fun _ => none) 1000 "u" true 500).sessionKey ≠ "dingtalk:u" := by
  refine ⟨rfl, by decide, by decide⟩

/-- Claim C7 (amended): for a sender with no stored session and
`forceReset = false`, the resolve call creates the suffix-free key
`dingtalk:<senderId>`, stores it with `lastActivity = now`, and returns it
with `isNew = false`. -/
theorem claim_C7_amended (reg : Registry) (now T : Int) (senderId : String)
    (h : reg senderId = none) :
    (getSessionKey reg now senderId false T).sessionKey = "dingtalk:" ++ senderId
    ∧ (getSessionKey reg now senderId false T).isNew = false
    ∧ (getSessionKey reg now senderId false T).reg senderId
        = some ⟨now, "dingtalk:" ++ senderId⟩ := by
  unfold getSessionKey
  rw [h]
  simp [setSession]

/-- Claim C7 witness: first resolve on an empty registry. -/
theorem claim_C7_witness :
    (getSessionKey (fun _ => none) 1000 "u" false 500).sessionKey = "dingtalk:" ++ "u"
    ∧ (getSessionKey (fun _ => none) 1000 "u" false 500).isNew = false := by
  have h := claim_C7_amended (fun _ => none) 1000 500 "u" rfl
  exact ⟨h.1, h.2.1⟩

/-! ## Claim theorems: media resolver -/

/-- Claim C9: with a null upload credential, `processLocalImages` is the
identity on the text and performs no uploads. -/
theorem claim_C9 (content : String) (upload : String → Option String) :
    processLocalImages content none upload = (content, []) := rfl

/-- Claim C1: the media-resolver round trip.  (1) `"see ![a](/tmp/x.png)"`
with an upload stub returning `"MID1"` rewrites to exactly
`"see ![a](MID1)"`; (2) `` "photo: `/tmp/y.jpg` done" `` with a stub
returning `"MID2"` rewrites to exactly `"photo: ![](MID2) done"` (the
backticks are consumed); (3) for every text, a bare-path match whose matched
span starts immediately after an image-opener `](` — i.e. the bare path is
the path component of a markdown-image occurrence — is never among the
matches the bare-path pass processes (`bareCandidates`). -/
theorem claim_C1 :
    (processLocalImages "see ![a](/tmp/x.png)" (some "tok") (fun _ => some "MID1")).1
      = "see ![a](MID1)"
    ∧ (processLocalImages "photo: `/tmp/y.jpg` done" (some "tok") (fun _ => some "MID2")).1
      = "photo: ![](MID2) done"
    ∧ (∀ (result : List Char) (idx : Nat) (tl : List Char) (m : BareMatch),
        2 ≤ idx → result.drop (idx - 2) = ']' :: '(' :: tl →
        (idx, m) ∉ bareCandidates result) := by
  refine ⟨by decide, by decide, ?_⟩
  intro result idx tl m h2 hdropEq hmem
  have hk : bareKeep result idx = false :=
    bareKeep_eq_false_of_opener result idx tl h2 hdropEq
  have hkeep := (List.mem_filter.mp hmem).2
  simp only [hk] at hkeep
  exact Bool.false_ne_true hkeep

/-- Claim C1 witness: in `"![a](/tmp/x.png)"` the bare path `/tmp/x.png`
starts at index 5, right after the opener `](`, and is excluded from the
bare-pass candidates. -/
theorem claim_C1_witness :
    (2 ≤ 5
      ∧ (String.toList "![a](/tmp/x.png)").drop (5 - 2)
          = ']' :: '(' :: String.toList "/tmp/x.png)")
    ∧ ((5 : Nat), BareMatch.mk (String.toList "/tmp/x.png") (String.toList "/tmp/x.png"))
        ∉ bareCandidates (String.toList "![a](/tmp/x.png)") := by
  refine ⟨⟨by decide, by decide⟩, ?_⟩
  exact claim_C1.2.2 (String.toList "![a](/tmp/x.png)") 5 (String.toList "/tmp/x.png)")
    (BareMatch.mk (String.toList "/tmp/x.png") (String.toList "/tmp/x.png"))
    (by decide) (by decide)

/-! ## AI-card lifecycle (plugin.ts lines 290-468)

The three remote PUT calls issued by `streamAICard` / `finishAICard` are
modelled as `PushEvent`s handed to an environment oracle
`env : PushEvent → Option String`; `env ev = none` means the HTTP call
succeeded, `env ev = some msg` means it threw with message `msg`.  Each
operation returns the card state after the call (the source mutates the
card object in place), the exception that propagated to the caller (if
any), and the chronological list of pushes *attempted*. -/

/-- A remote card call: the `INPUTING` phase-transition PUT on
`/v1.0/card/instances` (carrying its `msgContent`, which the source always
sends empty), a streaming PUT on `/v1.0/card/streaming` (content and
`isFinalize` flag), or the terminal `FINISHED` status PUT on
`/v1.0/card/instances`. -/
inductive PushEvent where
  | inputing : String → String → PushEvent
  | streaming : String → String → Bool → PushEvent
  | finished : String → String → PushEvent
deriving DecidableEq

/-- Embedding of the `AICardInstance` interface. -/
structure AICardInstance where
  cardInstanceId : String
  accessToken : String
  inputingStarted : Bool
deriving DecidableEq

/-- Result of one card operation: resulting card state, propagated
exception (if any), trace of attempted pushes. -/
structure CardCallResult where
  card : AICardInstance
  err : Option String
  trace : List PushEvent
deriving DecidableEq

/-- Embedding of `streamAICard` (plugin.ts lines 376-431).  If the card has
not yet entered the inputting phase, first push the `INPUTING` transition
with empty content; a failure there rethrows *before* `inputingStarted` is
set.  After a successful transition the flag is set, then the content push
is attempted; its failure also rethrows (with the flag already set). -/
def streamAICard (env : PushEvent → Option String) (card : AICardInstance)
    (content : String) (finished : Bool) : CardCallResult :=
  if card.inputingStarted then
    let ev := PushEvent.streaming card.cardInstanceId content finished
    { card := card, err := env ev, trace := [ev] }
  else
    let ev1 := PushEvent.inputing card.cardInstanceId ""
    match env ev1 with
    | some e => { card := card, err := some e, trace := [ev1] }
    | none =>
      let card2 := { card with inputingStarted := true }
      let ev2 := PushEvent.streaming card.cardInstanceId content finished
      { card := card2, err := env ev2, trace := [ev1, ev2] }

/-- Embedding of `finishAICard` (plugin.ts lines 434-468): first close the
streaming channel via `streamAICard` with `isFinalize = true` (its failure
propagates — there is no try/catch around it), then attempt the terminal
`FINISHED` status PUT, whose failure is caught and logged only. -/
def finishAICard (env : PushEvent → Option String) (card : AICardInstance)
    (content : String) : CardCallResult :=
  let r := streamAICard env card content true
  match r.err with
  | some e => { card := r.card, err := some e, trace := r.trace }
  | none =>
    let ev := PushEvent.finished card.cardInstanceId content
    { card := r.card, err := none, trace := r.trace ++ [ev] }

/-- A sequence of further `streamAICard` calls on the same card (content and
finalize flag per call), threading the card state and concatenating the
traces. -/
def runUpdates (env : PushEvent → Option String) :
    AICardInstance → List (String × Bool) → AICardInstance × List PushEvent
  | card, [] => (card, [])
  | card, (c, f) :: rest =>
    ((runUpdates env (streamAICard env card c f).card rest).1,
     (streamAICard env card c f).trace
       ++ (runUpdates env (streamAICard env card c f).card rest).2)

/-- Is this push an inputting phase transition? -/
def isInputingEv : PushEvent → Bool
  | PushEvent.inputing _ _ => true
  | _ => false

/-- Number of inputting-transition pushes in a trace. -/
def countInputing (tr : List PushEvent) : Nat := (tr.filter isInputingEv).length

/-- Once the inputting flag is set, a `streamAICard` call pushes exactly the
content push, no inputting transition, and leaves the card unchanged. -/
lemma streamAICard_started (env : PushEvent → Option String) (card : AICardInstance)
    (c : String) (f : Bool) (h : card.inputingStarted = true) :
    (streamAICard env card c f).card = card
    ∧ (streamAICard env card c f).trace
        = [PushEvent.streaming card.cardInstanceId c f] := by
  unfold streamAICard
  rw [h]
  exact ⟨rfl, rfl⟩

/-- Any run of further updates on a card whose inputting flag is set issues
no inputting-transition pushes. -/
lemma runUpdates_no_inputing (env : PushEvent → Option String) :
    ∀ (calls : List (String × Bool)) (card : AICardInstance),
      card.inputingStarted = true →
      countInputing (runUpdates env card calls).2 = 0 := by
  intro calls
  induction calls with
  | nil =>
    intro card h
    simp [runUpdates, countInputing]
  | cons cf rest ih =>
    intro card h
    cases cf with
    | mk c f =>
      obtain ⟨hcard, htr⟩ := streamAICard_started env card c f h
      have hflag : (streamAICard env card c f).card.inputingStarted = true := by
        rw [hcard]
        exact h
      have hrec := ih (streamAICard env card c f).card hflag
      have h1 : countInputing (streamAICard env card c f).trace = 0 := by
        rw [countInputing, htr]
        rfl
      simp only [runUpdates, countInputing, List.filter_append, List.length_append]
      rw [countInputing] at hrec h1
      omega

/-- A fixed card freshly returned by `createAICard` (which always sets
`inputingStarted := false`, plugin.ts line 365). -/
def cardW : AICardInstance := ⟨"card1", "tok", false⟩

/-- An environment in which every remote push succeeds. -/
def envOk : PushEvent → Option String := fun _ => none

/-- An environment in which only the terminal `FINISHED` status write
fails. -/
def envFailFinish : PushEvent → Option String := fun ev =>
  match ev with
  | PushEvent.finished _ _ => some "status write failed"
  | _ => none

/-- An environment in which only the inputting-transition push fails. -/
def envFailInput : PushEvent → Option String := fun ev =>
  match ev with
  | PushEvent.inputing _ _ => some "boom"
  | _ => none

/-- Claim C3: on a card that has not yet entered the inputting phase, the
first `streamAICard` call (with the transition push succeeding) issues
exactly one inputting-transition push, with empty content, before the
content push; the flag is then set, and any number of subsequent update
calls on the resulting card issue no further inputting pushes — exactly one
inputting transition in total per card. -/
theorem claim_C3 (env : PushEvent → Option String) (card : AICardInstance)
    (content : String) (fin : Bool) (calls : List (String × Bool))
    (h0 : card.inputingStarted = false)
    (h1 : env (PushEvent.inputing card.cardInstanceId "") = none) :
    (streamAICard env card content fin).trace
      = [PushEvent.inputing card.cardInstanceId "",
         PushEvent.streaming card.cardInstanceId content fin]
    ∧ countInputing (streamAICard env card content fin).trace = 1
    ∧ (streamAICard env card content fin).card.inputingStarted = true
    ∧ countInputing (runUpdates env (streamAICard env card content fin).card calls).2 = 0 := by
  have key : streamAICard env card content fin =
      { card := { card with inputingStarted := true },
        err := env (PushEvent.streaming card.cardInstanceId content fin),
        trace := [PushEvent.inputing card.cardInstanceId "",
                  PushEvent.streaming card.cardInstanceId content fin] } := by
    unfold streamAICard
    simp [h0, h1]
  refine ⟨by rw [key], by rw [key]; rfl, by rw [key], ?_⟩
  apply runUpdates_no_inputing
  rw [key]

/-- Claim C3 witness: a fresh card under an all-success environment; the
first update pushes the inputting transition once, and two further updates
push none. -/
theorem claim_C3_witness :
    (streamAICard envOk cardW "hello" false).trace
      = [PushEvent.inputing "card1" "", PushEvent.streaming "card1" "hello" false]
    ∧ countInputing (runUpdates envOk (streamAICard envOk cardW "hello" false).card
        [("hello world", false), ("hello world", true)]).2 = 0 := by
  have h := claim_C3 envOk cardW "hello" false
    [("hello world", false), ("hello world", true)] rfl rfl
  exact ⟨h.1, h.2.2.2⟩

/-- Claim C4: `finishAICard` issues the streaming push with
`isFinalize = true` before the terminal-status write (whenever it returns
without error its trace ends with exactly that pair, for every content,
including the empty string); a failing terminal-status write is swallowed
(if the streaming phase succeeded, `finishAICard` succeeds for *every*
environment, in particular one whose `FINISHED` write fails); a failure of
the streaming push itself propagates, and then no terminal write is ever
attempted. -/
theorem claim_C4 (env : PushEvent → Option String) (card : AICardInstance)
    (content : String) :
    ((finishAICard env card content).err = none →
      ∃ pre, (finishAICard env card content).trace
        = pre ++ [PushEvent.streaming card.cardInstanceId content true,
                  PushEvent.finished card.cardInstanceId content])
    ∧ ((streamAICard env card content true).err = none →
        (finishAICard env card content).err = none)
    ∧ (∀ e, (streamAICard env card content true).err = some e →
        (finishAICard env card content).err = some e
        ∧ PushEvent.finished card.cardInstanceId content ∉ (finishAICard env card content).trace) := by
  cases hst : card.inputingStarted with
  | true =>
    cases hs : env (PushEvent.streaming card.cardInstanceId content true) with
    | none =>
      refine ⟨fun _ => ⟨[], by simp [finishAICard, streamAICard, hst, hs]⟩,
              fun _ => by simp [finishAICard, streamAICard, hst, hs],
              fun e he => ?_⟩
      exfalso
      simp [streamAICard, hst, hs] at he
    | some msg =>
      refine ⟨fun hnone => ?_, fun hnone => ?_, fun e he => ?_⟩
      · exfalso
        simp [finishAICard, streamAICard, hst, hs] at hnone
      · exfalso
        simp [streamAICard, hst, hs] at hnone
      · have heq : msg = e := by
          simpa [streamAICard, hst, hs] using he
        subst heq
        simp [finishAICard, streamAICard, hst, hs]
  | false =>
    cases hi : env (PushEvent.inputing card.cardInstanceId "") with
    | none =>
      cases hs : env (PushEvent.streaming card.cardInstanceId content true) with
      | none =>
        refine ⟨fun _ => ⟨[PushEvent.inputing card.cardInstanceId ""],
                  by simp [finishAICard, streamAICard, hst, hi, hs]⟩,
                fun _ => by simp [finishAICard, streamAICard, hst, hi, hs],
                fun e he => ?_⟩
        exfalso
        simp [streamAICard, hst, hi, hs] at he
      | some msg =>
        refine ⟨fun hnone => ?_, fun hnone => ?_, fun e he => ?_⟩
        · exfalso
          simp [finishAICard, streamAICard, hst, hi, hs] at hnone
        · exfalso
          simp [streamAICard, hst, hi, hs] at hnone
        · have heq : msg = e := by
            simpa [streamAICard, hst, hi, hs] using he
          subst heq
          simp [finishAICard, streamAICard, hst, hi, hs]
    | some msg =>
      refine ⟨fun hnone => ?_, fun hnone => ?_, fun e he => ?_⟩
      · exfalso
        simp [finishAICard, streamAICard, hst, hi] at hnone
      · exfalso
        simp [streamAICard, hst, hi] at hnone
      · have heq : msg = e := by
          simpa [streamAICard, hst, hi] using he
        subst heq
        simp [finishAICard, streamAICard, hst, hi]

/-- Claim C4 witness: under the environment whose terminal-status write
fails, `finishAICard` on a fresh card with empty content still returns
without error, and its trace ends with the `isFinalize = true` streaming
push followed by the attempted terminal write. -/
theorem claim_C4_witness :
    (finishAICard envFailFinish cardW "").err = none
    ∧ (∃ pre, (finishAICard envFailFinish cardW "").trace
        = pre ++ [PushEvent.streaming "card1" "" true,
                  PushEvent.finished "card1" ""]) := by
  have h := claim_C4 envFailFinish cardW ""
  have hok : (finishAICard envFailFinish cardW "").err = none := h.2.1 rfl
  exact ⟨hok, h.1 hok⟩

/-- Claim C10: if the inputting-transition push fails on a card that has
not yet entered the inputting phase, the error is rethrown before the
`inputingStarted` flag is set — the card state is completely unchanged, no
content push happens, and a subsequent `streamAICard` call on the same card
re-attempts the inputting transition first. -/
theorem claim_C10 (env env2 : PushEvent → Option String) (card : AICardInstance)
    (content c2 : String) (fin f2 : Bool) (e : String)
    (h0 : card.inputingStarted = false)
    (h1 : env (PushEvent.inputing card.cardInstanceId "") = some e) :
    (streamAICard env card content fin).err = some e
    ∧ (streamAICard env card content fin).card = card
    ∧ (streamAICard env card content fin).trace
        = [PushEvent.inputing card.cardInstanceId ""]
    ∧ (streamAICard env2 (streamAICard env card content fin).card c2 f2).trace.head?
        = some (PushEvent.inputing card.cardInstanceId "") := by
  have key : streamAICard env card content fin =
      { card := card, err := some e,
        trace := [PushEvent.inputing card.cardInstanceId ""] } := by
    unfold streamAICard
    simp [h0, h1]
  refine ⟨by rw [key], by rw [key], by rw [key], ?_⟩
  rw [key]
  unfold streamAICard
  cases he2 : env2 (PushEvent.inputing card.cardInstanceId "") with
  | none => simp [h0, he2]
  | some e2 => simp [h0, he2]

/-- Claim C10 witness: a fresh card under the inputting-failure
environment; the error propagates, the card is unchanged, and a retry under
the all-success environment re-attempts the inputting transition. -/
theorem claim_C10_witness :
    (streamAICard envFailInput cardW "x" false).err = some "boom"
    ∧ (streamAICard envFailInput cardW "x" false).card = cardW
    ∧ (streamAICard envOk (streamAICard envFailInput cardW "x" false).card "y" false).trace.head?
        = some (PushEvent.inputing "card1" "") := by
  have h := claim_C10 envFailInput envOk cardW "x" "y" false false "boom" rfl rfl
  exact ⟨h.1, h.2.1, h.2.2.2⟩

/-! ## Gateway SSE consumption (plugin.ts lines 480-541)

The read loop of `streamFromGateway` is embedded over a list of decoded
chunk strings: the carry buffer, the `split('\n')` line assembly, the
`data: ` marker filter, the `[DONE]` sentinel, and the
`JSON.parse`-then-extract step (with parse failures silently skipped, as in
the source's empty `catch`).  `JSON.parse` is modelled by a small
recursive-descent JSON parser. -/

/-- Minimal JSON value type.  Numeric payloads keep only the integer part of
the mantissa (fraction/exponent are validated syntactically but their value
is never inspected by the extraction below). -/
inductive Json where
  | null : Json
  | bool : Bool → Json
  | num : Int → Json
  | str : String → Json
  | arr : List Json → Json
  | obj : List (String × Json) → Json

/-- JSON insignificant whitespace. -/
def jsonWsChar (c : Char) : Bool := c == ' ' || c == '\t' || c == '\n' || c == '\r'

/-- Skip insignificant whitespace. -/
def skipWs (s : List Char) : List Char := s.dropWhile jsonWsChar

/-- Hexadecimal digit value. -/
def hexVal (c : Char) : Option Nat :=
  if '0' ≤ c ∧ c ≤ '9' then some (c.toNat - 48)
  else if 'a' ≤ c ∧ c ≤ 'f' then some (c.toNat - 87)
  else if 'A' ≤ c ∧ c ≤ 'F' then some (c.toNat - 55)
  else none

/-- Parse the body of a JSON string after the opening quote, handling the
escape sequences; returns the decoded characters and the rest after the
closing quote.  Raw control characters are rejected, as `JSON.parse`
does. -/
def parseStrBody : Nat → List Char → Option (List Char × List Char)
  | 0, _ => none
  | _, [] => none
  | fuel + 1, c :: cs =>
    if c == dquoteChar then some ([], cs)
    else if c == '\\' then
      match cs with
      | [] => none
      | e :: cs2 =>
        if e == dquoteChar then
          (parseStrBody fuel cs2).map (fun r => (dquoteChar :: r.1, r.2))
        else if e == '\\' then
          (parseStrBody fuel cs2).map (fun r => ('\\' :: r.1, r.2))
        else if e == '/' then
          (parseStrBody fuel cs2).map (fun r => ('/' :: r.1, r.2))
        else if e == 'b' then
          (parseStrBody fuel cs2).map (fun r => ('\x08' :: r.1, r.2))
        else if e == 'f' then
          (parseStrBody fuel cs2).map (fun r => ('\x0c' :: r.1, r.2))
        else if e == 'n' then
          (parseStrBody fuel cs2).map (fun r => ('\n' :: r.1, r.2))
        else if e == 'r' then
          (parseStrBody fuel cs2).map (fun r => ('\r' :: r.1, r.2))
        else if e == 't' then
          (parseStrBody fuel cs2).map (fun r => ('\t' :: r.1, r.2))
        else if e == 'u' then
          match cs2 with
          | h1 :: h2 :: h3 :: h4 :: cs3 =>
            match hexVal h1, hexVal h2, hexVal h3, hexVal h4 with
            | some a, some b, some c3, some d =>
              (parseStrBody fuel cs3).map
                (fun r => (Char.ofNat (a * 4096 + b * 256 + c3 * 16 + d) :: r.1, r.2))
            | _, _, _, _ => none
          | _ => none
        else none
    else if c.toNat < 32 then none
    else (parseStrBody fuel cs).map (fun r => (c :: r.1, r.2))

/-- Take a maximal run of decimal digits. -/
def takeDigits : List Char → List Char × List Char
  | [] => ([], [])
  | c :: cs =>
    if '0' ≤ c ∧ c ≤ '9' then
      ((takeDigits cs).1.cons c, (takeDigits cs).2)
    else ([], c :: cs)

/-- Parse a JSON number (sign, integer part with no leading zeros, optional
fraction and exponent); the returned value is the signed integer part. -/
def parseNum (s : List Char) : Option (Json × List Char) :=
  let sgn := match s with
    | '-' :: rest => (true, rest)
    | _ => (false, s)
  let ds := takeDigits sgn.2
  match ds.1 with
  | [] => none
  | d0 :: drest =>
    if d0 == '0' ∧ drest ≠ [] then none
    else
      let mag : Nat := ds.1.foldl (fun a c => a * 10 + (c.toNat - 48)) 0
      let afterFrac : Option (List Char) :=
        match ds.2 with
        | '.' :: r =>
          let fd := takeDigits r
          if fd.1 = [] then none else some fd.2
        | _ => some ds.2
      match afterFrac with
      | none => none
      | some s4 =>
        let afterExp : Option (List Char) :=
          match s4 with
          | e :: r =>
            if e == 'e' ∨ e == 'E' then
              let r1 := match r with
                | '+' :: rr => rr
                | '-' :: rr => rr
                | _ => r
              let ed := takeDigits r1
              if ed.1 = [] then none else some ed.2
            else some s4
          | [] => some s4
        match afterExp with
        | none => none
        | some s6 =>
          some (Json.num (if sgn.1 then -(mag : Int) else (mag : Int)), s6)

mutual

/-- Parse one JSON value (fuel-bounded recursive descent). -/
def parseJsonVal : Nat → List Char → Option (Json × List Char)
  | 0, _ => none
  | fuel + 1, s =>
    match skipWs s with
    | [] => none
    | c :: cs =>
      if c == dquoteChar then
        (parseStrBody (fuel + 1) cs).map (fun r => (Json.str (String.mk r.1), r.2))
      else if c == '{' then parseObjRest fuel cs
      else if c == '[' then parseArrRest fuel cs
      else if c == 't' then (takeLit "rue".toList cs).map (fun r => (Json.bool true, r))
      else if c == 'f' then (takeLit "alse".toList cs).map (fun r => (Json.bool false, r))
      else if c == 'n' then (takeLit "ull".toList cs).map (fun r => (Json.null, r))
      else parseNum (c :: cs)

/-- Parse the rest of an array after `[`. -/
def parseArrRest : Nat → List Char → Option (Json × List Char)
  | 0, _ => none
  | fuel + 1, s =>
    match skipWs s with
    | ']' :: rest => some (Json.arr [], rest)
    | s2 =>
      match parseJsonVal fuel s2 with
      | none => none
      | some (v, rest) => parseArrMore fuel [v] rest

/-- Parse further `, value` items of an array up to `]` (accumulator holds
the items in reverse). -/
def parseArrMore : Nat → List Json → List Char → Option (Json × List Char)
  | 0, _, _ => none
  | fuel + 1, accRev, s =>
    match skipWs s with
    | ',' :: rest =>
      match parseJsonVal fuel rest with
      | none => none
      | some (v, rest2) => parseArrMore fuel (v :: accRev) rest2
    | ']' :: rest => some (Json.arr accRev.reverse, rest)
    | _ => none

/-- Parse the rest of an object after `{`. -/
def parseObjRest : Nat → List Char → Option (Json × List Char)
  | 0, _ => none
  | fuel + 1, s =>
    match skipWs s with
    | [] => none
    | c :: rest =>
      if c == '}' then some (Json.obj [], rest)
      else if c == dquoteChar then
        match parseStrBody fuel rest with
        | none => none
        | some (k, rest2) =>
          match skipWs rest2 with
          | ':' :: rest3 =>
            match parseJsonVal fuel rest3 with
            | none => none
            | some (v, rest4) => parseObjMore fuel [(String.mk k, v)] rest4
          | _ => none
      else none

/-- Parse further `, "key": value` members of an object up to `}`
(accumulator holds the members in reverse). -/
def parseObjMore : Nat → List (String × Json) → List Char → Option (Json × List Char)
  | 0, _, _ => none
  | fuel + 1, accRev, s =>
    match skipWs s with
    | ',' :: rest =>
      match skipWs rest with
      | [] => none
      | c :: rest1 =>
        if c == dquoteChar then
          match parseStrBody fuel rest1 with
          | none => none
          | some (k, rest2) =>
            match skipWs rest2 with
            | ':' :: rest3 =>
              match parseJsonVal fuel rest3 with
              | none => none
              | some (v, rest4) => parseObjMore fuel ((String.mk k, v) :: accRev) rest4
            | _ => none
        else none
    | c :: rest =>
      if c == '}' then some (Json.obj accRev.reverse, rest) else none
    | [] => none

end

/-- Model of `JSON.parse`: parse one value and require only whitespace to
remain. -/
def jsonParse (s : List Char) : Option Json :=
  match parseJsonVal (2 * s.length + 2) s with
  | some (j, rest) => if (skipWs rest).isEmpty then some j else none
  | none => none

/-- First-match field lookup in a parsed object. -/
def lookupField : List (String × Json) → String → Option Json
  | [], _ => none
  | (k2, v) :: rest, k => if k2 == k then some v else lookupField rest k

/-- Field access `obj.k` (none on non-objects / missing fields, mirroring
JS optional chaining yielding `undefined`). -/
def jsonField (j : Json) (k : String) : Option Json :=
  match j with
  | Json.obj fs => lookupField fs k
  | _ => none

/-- The extraction `chunk.choices?.[0]?.delta?.content` followed by the
`if (content)` truthiness guard: yields the content exactly when it is a
nonempty string (in this protocol the delta content is always a string). -/
def deltaContent (j : Json) : Option String :=
  match jsonField j "choices" with
  | some (Json.arr (c0 :: _)) =>
    match jsonField c0 "delta" with
    | some d =>
      match jsonField d "content" with
      | some (Json.str s) => if s == "" then none else some s
      | _ => none
    | none => none
  | _ => none

/-- JS `split('\n')` over character lists (always returns at least one,
possibly empty, segment). -/
def splitOnNl : List Char → List (List Char)
  | [] => [[]]
  | c :: cs =>
    if c == '\n' then [] :: splitOnNl cs
    else
      match splitOnNl cs with
      | [] => [[c]]
      | l :: ls => (c :: l) :: ls

/-- JS `trim` over character lists. -/
def jsTrimL (s : List Char) : List Char :=
  ((s.dropWhile jsWhitespace).reverse.dropWhile jsWhitespace).reverse

/-- Process the complete lines of one read (plugin.ts lines 529-539): skip
lines without the `data: ` marker, stop at the `[DONE]` sentinel (reporting
clean termination), parse the payload and yield the delta content when
present; malformed payloads are skipped silently. -/
def processLines : List (List Char) → List String × Bool
  | [] => ([], false)
  | line :: rest =>
    if headMatches "data: ".toList line then
      let data := jsTrimL (line.drop 6)
      if data = "[DONE]".toList then ([], true)
      else
        match jsonParse data with
        | some j =>
          match deltaContent j with
          | some c => ((processLines rest).1.cons c, (processLines rest).2)
          | none => processLines rest
        | none => processLines rest
    else processLines rest

/-- Embedding of the read loop of `streamFromGateway` (plugin.ts lines
517-541) over a list of decoded reads: append each read to the carry
buffer, split on newlines, keep the last (possibly partial) segment as the
new buffer, process the complete lines, and stop at the sentinel.  Returns
the yielded fragments in order and whether the sequence terminated at the
`[DONE]` sentinel. -/
def streamFromGateway : List String → List Char → List String × Bool
  | [], _buffer => ([], false)
  | r :: rs, buffer =>
    let lines := splitOnNl (buffer ++ r.toList)
    let pr := processLines lines.dropLast
    if pr.2 then (pr.1, true)
    else
      (pr.1 ++ (streamFromGateway rs (lines.getLastD [])).1,
       (streamFromGateway rs (lines.getLastD [])).2)

/-- Claim C5: feeding the two chunked reads
`"data: {\"choices\":[{\"delta\":{\"content\":\"hel\"}}]}\n"` and
`"lo\"}}]}\n\ndata: [DONE]\n"` into the SSE loop yields the fragment
`"hel"` exactly once and terminates cleanly at the `[DONE]` sentinel with
no further fragments — the stray continuation line produced by the split is
skipped silently (it carries no `data: ` marker), not raised as an error
(the model has no failure outcome in the loop: parse failures are skipped,
exactly as the source's empty `catch`). -/
theorem claim_C5 :
    streamFromGateway
      ["data: \x7b\"choices\":[\x7b\"delta\":\x7b\"content\":\"hel\"\x7d\x7d]\x7d\n",
       "lo\"\x7d\x7d]\x7d\n\ndata: [DONE]\n"] []
      = (["hel"], true) := by decide

/-! ## Message orchestration after card creation (plugin.ts lines 691-773)

`handleDingTalkMessage` branches on the outcome of `createAICard`: the card
branch accumulates stream chunks with throttled pushes, applies
`processLocalImages` to the final accumulation, and finishes the card; the
degraded branch accumulates the full response and performs exactly one
plain/markdown message send.  The gateway stream is modelled as the list of
delivered chunks (with their `Date.now()` arrival times for the throttle
check) plus an optional error thrown after them; outbound webhook sends are
recorded as `OutAction`s. -/

/-- An outbound plain/markdown message send (`sendMessage`). -/
inductive OutAction where
  | sendMsg : String → OutAction
deriving DecidableEq

/-- Result of the card-branch streaming loop. -/
structure CardLoopResult where
  card : AICardInstance
  acc : String
  err : Option String
  trace : List PushEvent
deriving DecidableEq

/-- The card-branch for-await loop (plugin.ts lines 702-722): accumulate
each chunk, and when at least `updateInterval = 300` ms have passed since
the last push (`lastUpdateTime` starts at 0, so the first chunk always
pushes), push the accumulation via `streamAICard`; a throwing push exits
the loop with the error. -/
def cardLoop (env : PushEvent → Option String) :
    AICardInstance → String → Int → List (String × Int) → CardLoopResult
  | card, acc, _, [] => ⟨card, acc, none, []⟩
  | card, acc, lastUpdate, (chunk, now) :: rest =>
    if now - lastUpdate ≥ 300 then
      match (streamAICard env card (acc ++ chunk) false).err with
      | some e =>
        ⟨(streamAICard env card (acc ++ chunk) false).card, acc ++ chunk, some e,
         (streamAICard env card (acc ++ chunk) false).trace⟩
      | none =>
        ⟨(cardLoop env (streamAICard env card (acc ++ chunk) false).card
            (acc ++ chunk) now rest).card,
         (cardLoop env (streamAICard env card (acc ++ chunk) false).card
            (acc ++ chunk) now rest).acc,
         (cardLoop env (streamAICard env card (acc ++ chunk) false).card
            (acc ++ chunk) now rest).err,
         (streamAICard env card (acc ++ chunk) false).trace ++
           (cardLoop env (streamAICard env card (acc ++ chunk) false).card
              (acc ++ chunk) now rest).trace⟩
    else cardLoop env card (acc ++ chunk) lastUpdate rest

/-- The card branch of `handleDingTalkMessage` (plugin.ts lines 691-743):
run the throttled loop; on success apply `processLocalImages` to the final
accumulation and finish the card with the rewritten text; on a loop or
stream error append the visible error annotation and still attempt the
finish (whose own failure is swallowed by the outer catch). -/
def cardBranch (env : PushEvent → Option String) (oapiToken : Option String)
    (upload : String → Option String) (card : AICardInstance)
    (chunks : List (String × Int)) (streamErr : Option String) : List PushEvent :=
  let lp := cardLoop env card "" 0 chunks
  match lp.err with
  | some e =>
    lp.trace ++ (finishAICard env lp.card (lp.acc ++ "\n\n⚠️ 响应中断: " ++ e)).trace
  | none =>
    match streamErr with
    | some e =>
      lp.trace ++ (finishAICard env lp.card (lp.acc ++ "\n\n⚠️ 响应中断: " ++ e)).trace
    | none =>
      let acc2 := (processLocalImages lp.acc oapiToken upload).1
      let fr := finishAICard env lp.card acc2
      match fr.err with
      | none => lp.trace ++ fr.trace
      | some e2 =>
        lp.trace ++ fr.trace ++
          (finishAICard env fr.card (acc2 ++ "\n\n⚠️ 响应中断: " ++ e2)).trace

/-- The degraded branch of `handleDingTalkMessage` (plugin.ts lines
745-773): accumulate the full response and send it as one message
(`fullResponse || '（无响应）'`); if the stream threw, send the apology
message instead.  No media post-processing happens in this branch. -/
def degradedBranch (chunks : List String) (streamErr : Option String) : List OutAction :=
  match streamErr with
  | none =>
    [OutAction.sendMsg
      (if chunks.foldl (fun a c => a ++ c) "" == "" then "（无响应）"
       else chunks.foldl (fun a c => a ++ c) "")]
  | some e => [OutAction.sendMsg ("抱歉，处理请求时出错: " ++ e)]

/-- The part of `handleDingTalkMessage` after `createAICard` returns: the
card branch when a card was created, the degraded plain-message branch when
creation yielded null.  Returns the card pushes and the outbound message
sends. -/
def handleAfterCard (env : PushEvent → Option String) (oapiToken : Option String)
    (upload : String → Option String) (cardOpt : Option AICardInstance)
    (chunks : List (String × Int)) (streamErr : Option String) :
    List PushEvent × List OutAction :=
  match cardOpt with
  | some card => (cardBranch env oapiToken upload card chunks streamErr, [])
  | none => ([], degradedBranch (chunks.map Prod.fst) streamErr)

/-- Claim C2 counterexample: card creation returns null, the stream
delivers `"see ![a](/tmp/x.png)"`, the upload credential and a stub
returning `"MID1"` are available — the single degraded-mode send carries
the *raw* accumulated text, while `processLocalImages` applied to that text
(as the claim requires of the sent text) yields the different string
`"see ![a](MID1)"`: the resolver is not applied in the degraded path. -/
theorem claim_C2_counterexample :
    (handleAfterCard envOk (some "tok") (fun _ => some "MID1") none
        [("see ![a](/tmp/x.png)", 1000)] none).2
      = [OutAction.sendMsg "see ![a](/tmp/x.png)"]
    ∧ (processLocalImages "see ![a](/tmp/x.png)" (some "tok") (fun _ => some "MID1")).1
        = "see ![a](MID1)"
    ∧ OutAction.sendMsg "see ![a](/tmp/x.png)" ≠ OutAction.sendMsg "see ![a](MID1)" := by
  refine ⟨by decide, by decide, by decide⟩

/-- Claim C2 (amended): whenever card creation returns null and the stream
completes without error, the user receives the response via exactly one
plain/markdown message send, whose text is the raw accumulated stream
output (or the `（无响应）` placeholder when it is empty) — no
`processLocalImages` call is applied in this branch, and no card pushes
happen. -/
theorem claim_C2_amended (env : PushEvent → Option String) (oapiToken : Option String)
    (upload : String → Option String) (chunks : List (String × Int)) :
    (handleAfterCard env oapiToken upload none chunks none).1 = []
    ∧ (handleAfterCard env oapiToken upload none chunks none).2
      = [OutAction.sendMsg
          (if (chunks.map Prod.fst).foldl (fun a c => a ++ c) "" == "" then "（无响应）"
           else (chunks.map Prod.fst).foldl (fun a c => a ++ c) "")] := by
  exact ⟨rfl, rfl⟩

end DingTalk
